import Mathlib

/-! Verification development for the command-line research assistant in
`src/main.py`.  Python strings are modelled as `List Char`; the JSON decoding
performed by `json.loads`, the two regular-expression operations used by
`clean_json_response`, the orchestration in `research_topic`, and the
read-eval-print loop in `main` are embedded as executable Lean functions.
Machine-level aspects that cannot influence the verified claims (float decoding
of numeric literals, Unicode lone-surrogate escapes, non-ASCII case folding and
whitespace classes) are noted at the definitions that abstract them. -/

/-- Character list of a string literal (Python `str` values are `List Char`). -/
def cs (s : String) : List Char := s.data

/-- The backtick character, written via its code point. -/
def btick : Char := Char.ofNat 96

/-- Python whitespace as matched by `re`'s `\s` and stripped by `str.strip()`:
space, tab, newline, carriage return, vertical tab, form feed.  (The Unicode
extras of Python's `\s` never occur in the inputs of any claim.) -/
def pyWs (c : Char) : Bool :=
  c == ' ' || c == '\t' || c == '\n' || c == '\r' ||
  c == Char.ofNat 11 || c == Char.ofNat 12

/-- JSON whitespace as skipped by `json.loads` between tokens: exactly
space, tab, newline, carriage return (CPython's `WHITESPACE_STR`). -/
def jsonWs (c : Char) : Bool :=
  c == ' ' || c == '\t' || c == '\n' || c == '\r'

/-- Skip JSON whitespace (the `_w(s, idx).end()` steps of the decoder). -/
def skipJsonWs (s : List Char) : List Char := s.dropWhile jsonWs

/-- Python `str.strip()` restricted to the ASCII whitespace of `pyWs`. -/
def pyStrip (s : List Char) : List Char :=
  ((s.dropWhile pyWs).reverse.dropWhile pyWs).reverse

/-- Python `str.lower()` (ASCII; no claim input contains non-ASCII letters). -/
def pyLower (s : List Char) : List Char := s.map Char.toLower

/-- `leadsWith pat s` is true when `pat` is an initial segment of `s`
(the `s[idx:idx+n] == pat` checks of the scanner, and literal matching of
regular-expression alternatives). -/
def leadsWith : List Char → List Char → Bool
  | [], _ => true
  | _ :: _, [] => false
  | p :: ps, c :: rest => p == c && leadsWith ps rest

/-- JSON values as produced by `json.loads`.  Numeric literals keep their
lexeme: the claims only concern parse success/failure and structural identity
of parses produced by this same decoder, never the float/int value of a
number, so the int/float decoding of CPython is not modelled. -/
inductive PyJson where
  | null : PyJson
  | bool : Bool → PyJson
  | num : List Char → PyJson
  | str : List Char → PyJson
  | arr : List PyJson → PyJson
  | obj : List (List Char × PyJson) → PyJson

/-- Value of a hexadecimal digit, as accepted in `\uXXXX` escapes. -/
def hexVal (c : Char) : Option Nat :=
  if '0' ≤ c && c ≤ '9' then some (c.toNat - 48)
  else if 'a' ≤ c && c ≤ 'f' then some (c.toNat - 87)
  else if 'A' ≤ c && c ≤ 'F' then some (c.toNat - 70)
  else none

/-- Four hexadecimal digits, as in a `\uXXXX` escape. -/
def hex4 (a b c d : Char) : Option Nat :=
  match hexVal a, hexVal b, hexVal c, hexVal d with
  | some x, some y, some z, some w => some (((x * 16 + y) * 16 + z) * 16 + w)
  | _, _, _, _ => none

/-- `py_scanstring`: decode the body of a JSON string (the opening quote has
already been consumed), returning the decoded content and the rest of the
input.  Strict mode: raw control characters below U+0020 are rejected.
Escapes `\" \\ \/ \b \f \n \r \t \uXXXX` are decoded; surrogate pairs are
combined.  CPython additionally keeps a lone surrogate escape in the string;
a lone surrogate is not a Lean `Char`, so that case is modelled as a parse
failure (no claim involves surrogate escapes). -/
def scanStringAux : List Char → Option (List Char × List Char)
  | [] => none
  | c :: rest =>
    if c == '"' then some ([], rest)
    else if c == '\\' then
      match rest with
      | [] => none
      | e :: r1 =>
        if e == '"' then (scanStringAux r1).map (fun p => ('"' :: p.1, p.2))
        else if e == '\\' then (scanStringAux r1).map (fun p => ('\\' :: p.1, p.2))
        else if e == '/' then (scanStringAux r1).map (fun p => ('/' :: p.1, p.2))
        else if e == 'b' then (scanStringAux r1).map (fun p => (Char.ofNat 8 :: p.1, p.2))
        else if e == 'f' then (scanStringAux r1).map (fun p => (Char.ofNat 12 :: p.1, p.2))
        else if e == 'n' then (scanStringAux r1).map (fun p => ('\n' :: p.1, p.2))
        else if e == 'r' then (scanStringAux r1).map (fun p => ('\r' :: p.1, p.2))
        else if e == 't' then (scanStringAux r1).map (fun p => ('\t' :: p.1, p.2))
        else if e == 'u' then
          match r1 with
          | h1 :: h2 :: h3 :: h4 :: r2 =>
            match hex4 h1 h2 h3 h4 with
            | none => none
            | some code =>
              if 0xD800 ≤ code && code ≤ 0xDBFF then
                match r2 with
                | s1 :: s2 :: g1 :: g2 :: g3 :: g4 :: r3 =>
                  if s1 == '\\' && s2 == 'u' then
                    match hex4 g1 g2 g3 g4 with
                    | none => none
                    | some code2 =>
                      if 0xDC00 ≤ code2 && code2 ≤ 0xDFFF then
                        (scanStringAux r3).map (fun p =>
                          (Char.ofNat (0x10000 + (code - 0xD800) * 0x400 + (code2 - 0xDC00)) :: p.1, p.2))
                      else none
                  else none
                | _ => none
              else if 0xDC00 ≤ code && code ≤ 0xDFFF then none
              else (scanStringAux r2).map (fun p => (Char.ofNat code :: p.1, p.2))
          | _ => none
        else none
    else if c.toNat < 32 then none
    else (scanStringAux rest).map (fun p => (c :: p.1, p.2))

/-- ASCII decimal digit. -/
def isDigitCh (c : Char) : Bool := '0' ≤ c && c ≤ '9'

/-- ASCII digit 1–9 (first digit of a nonzero integer part). -/
def isDig19 (c : Char) : Bool := '1' ≤ c && c ≤ '9'

/-- The integer part `(0|[1-9]\d*)` of CPython's `NUMBER_RE`. -/
def parseIntLex : List Char → Option (List Char × List Char)
  | [] => none
  | c :: t =>
    if c == '0' then some (['0'], t)
    else if isDig19 c then some (c :: t.takeWhile isDigitCh, t.dropWhile isDigitCh)
    else none

/-- The optional fraction `(\.\d+)?` after the integer part: consumed only
when a dot is directly followed by at least one digit. -/
def parseFracLex (s : List Char) : List Char × List Char :=
  match s with
  | '.' :: u =>
    if (u.takeWhile isDigitCh).isEmpty then ([], s)
    else ('.' :: u.takeWhile isDigitCh, u.dropWhile isDigitCh)
  | _ => ([], s)

/-- The optional exponent `([eE][-+]?\d+)?`: consumed only when `e`/`E`, an
optional sign, and at least one digit follow. -/
def parseExpLex (s : List Char) : List Char × List Char :=
  match s with
  | e :: u =>
    if e == 'e' || e == 'E' then
      match u with
      | g :: u2 =>
        if g == '+' || g == '-' then
          if (u2.takeWhile isDigitCh).isEmpty then ([], s)
          else (e :: g :: u2.takeWhile isDigitCh, u2.dropWhile isDigitCh)
        else
          if (u.takeWhile isDigitCh).isEmpty then ([], s)
          else (e :: u.takeWhile isDigitCh, u.dropWhile isDigitCh)
      | [] => ([], s)
    else ([], s)
  | [] => ([], s)

/-- CPython's `NUMBER_RE` matched at the current position: returns the
matched lexeme and the rest of the input. -/
def parseNumLex (s : List Char) : Option (List Char × List Char) :=
  match s with
  | '-' :: t =>
    match parseIntLex t with
    | none => none
    | some (ip, r) =>
      match parseFracLex r with
      | (fp, r1) =>
        match parseExpLex r1 with
        | (ep, r2) => some ('-' :: (ip ++ fp ++ ep), r2)
  | _ =>
    match parseIntLex s with
    | none => none
    | some (ip, r) =>
      match parseFracLex r with
      | (fp, r1) =>
        match parseExpLex r1 with
        | (ep, r2) => some (ip ++ fp ++ ep, r2)

/-- `d[k] = v` during `dict(pairs)`: overwrite the value of an existing key in
place, otherwise append (Python dicts keep first-insertion order). -/
def insertKV : List (List Char × PyJson) → List Char → PyJson → List (List Char × PyJson)
  | [], k, v => [(k, v)]
  | (k', v') :: rest, k, v =>
    if k' = k then (k', v) :: rest else (k', v') :: insertKV rest k v

mutual

/-- `scan_once` of CPython's JSON scanner, at a position where whitespace has
already been skipped by the caller.  The `fuel` argument only serves
termination; `pyLoads` supplies more fuel than any input can consume. -/
def scanValue : Nat → List Char → Option (PyJson × List Char)
  | 0, _ => none
  | fuel + 1, s =>
    match s with
    | [] => none
    | c :: rest =>
      if c == '"' then
        (scanStringAux rest).map (fun p => (PyJson.str p.1, p.2))
      else if c == '{' then
        match skipJsonWs rest with
        | '}' :: r => some (PyJson.obj [], r)
        | '"' :: r => scanMembers fuel r []
        | _ => none
      else if c == '[' then
        match skipJsonWs rest with
        | ']' :: r => some (PyJson.arr [], r)
        | t => scanElems fuel t []
      else if leadsWith (cs "null") s then some (PyJson.null, s.drop 4)
      else if leadsWith (cs "true") s then some (PyJson.bool true, s.drop 4)
      else if leadsWith (cs "false") s then some (PyJson.bool false, s.drop 5)
      else
        match parseNumLex s with
        | some (lex, r) => some (PyJson.num lex, r)
        | none =>
          if leadsWith (cs "NaN") s then some (PyJson.num (cs "NaN"), s.drop 3)
          else if leadsWith (cs "Infinity") s then some (PyJson.num (cs "Infinity"), s.drop 8)
          else if leadsWith (cs "-Infinity") s then some (PyJson.num (cs "-Infinity"), s.drop 9)
          else none

/-- `JSONObject` members loop: positioned just after the opening quote of a
key.  Mirrors CPython: key string, optional whitespace, `:`, whitespace,
value, whitespace, then `}` to finish or `,` + whitespace + `"` for the next
key. -/
def scanMembers : Nat → List Char → List (List Char × PyJson) → Option (PyJson × List Char)
  | 0, _, _ => none
  | fuel + 1, s, acc =>
    match scanStringAux s with
    | none => none
    | some (key, r1) =>
      match skipJsonWs r1 with
      | ':' :: r2 =>
        match scanValue fuel (skipJsonWs r2) with
        | none => none
        | some (v, r3) =>
          match skipJsonWs r3 with
          | '}' :: r4 => some (PyJson.obj (insertKV acc key v), r4)
          | ',' :: r4 =>
            match skipJsonWs r4 with
            | '"' :: r5 => scanMembers fuel r5 (insertKV acc key v)
            | _ => none
          | _ => none
      | _ => none

/-- `JSONArray` elements loop: positioned at the start of a value (whitespace
already skipped).  After each value: whitespace, then `]` to finish or `,` +
whitespace before the next value. -/
def scanElems : Nat → List Char → List PyJson → Option (PyJson × List Char)
  | 0, _, _ => none
  | fuel + 1, s, acc =>
    match scanValue fuel s with
    | none => none
    | some (v, r1) =>
      match skipJsonWs r1 with
      | ']' :: r2 => some (PyJson.arr (acc ++ [v]), r2)
      | ',' :: r2 => scanElems fuel (skipJsonWs r2) (acc ++ [v])
      | _ => none

end

/-- `json.loads`: skip leading whitespace, scan one value, skip trailing
whitespace, and require the input to be exhausted ("Extra data" otherwise).
`none` models a raised `json.JSONDecodeError`. -/
def pyLoads (s : List Char) : Option PyJson :=
  match scanValue (s.length + 1) (skipJsonWs s) with
  | some (v, rest) => if skipJsonWs rest = [] then some v else none
  | none => none

/-- Index of the first `{` in the input, if any. -/
def firstBraceIdx : List Char → Option Nat
  | [] => none
  | c :: rest =>
    if c = '{' then some 0 else (firstBraceIdx rest).map (· + 1)

/-- Index of the first `}` in the input, if any. -/
def firstCloseIdx : List Char → Option Nat
  | [] => none
  | c :: rest =>
    if c = '}' then some 0 else (firstCloseIdx rest).map (· + 1)

/-- Index of the last `}` in the input, if any. -/
def lastCloseIdx (s : List Char) : Option Nat :=
  match firstCloseIdx s.reverse with
  | some k => some (s.length - 1 - k)
  | none => none

/-- `re.search(r'\{[\s\S]*\}', response)`.  The pattern can only start at the
first `{` of the input, and the greedy `[\s\S]*` then backtracks from the end
of the input to the last `}`; hence the match, when one exists, is exactly the
substring from the first `{` to the last `}` (which must lie further right). -/
def jsonSpanMatch (s : List Char) : Option (List Char) :=
  match firstBraceIdx s, lastCloseIdx s with
  | some i, some j => if i < j then some ((s.drop i).take (j - i + 1)) else none
  | _, _ => none

/-- Length of the run of `\s` characters at the head of the input. -/
def wsLen (s : List Char) : Nat := (s.takeWhile pyWs).length

/-- One attempted match of `` r'```json\s*|\s*```' `` at the current position.
The first alternative is tried first: the literal ```` ```json ```` followed by
the (greedy, unchallenged) whitespace run.  The second alternative is `\s*`
followed by ```` ``` ````; since a backtick is not `\s`, backtracking of the
greedy `\s*` can only succeed when the entire leading whitespace run is
followed directly by ```` ``` ````.  Returns the length of the match. -/
def matchFenceAt (s : List Char) : Option Nat :=
  match leadsWith (cs "```json") s with
  | true => some (7 + wsLen (s.drop 7))
  | false =>
    match leadsWith (cs "```") (s.drop (wsLen s)) with
    | true => some (wsLen s + 3)
    | false => none

/-- Left-to-right scan of `re.sub(pattern, '', s)`: at each position try the
pattern; on a match delete it and resume after it, otherwise keep the
character.  Every match has length at least 3, so fuel `s.length` suffices. -/
def removeFencesAux : Nat → List Char → List Char
  | 0, s => s
  | _ + 1, [] => []
  | fuel + 1, c :: rest =>
    match matchFenceAt (c :: rest) with
    | some k => removeFencesAux fuel ((c :: rest).drop k)
    | none => c :: removeFencesAux fuel rest

/-- `re.sub(r'```json\s*|\s*```', '', s)` — delete every fence-marker match. -/
def removeFences (s : List Char) : List Char := removeFencesAux s.length s

/-- Summary field of the fallback record: the raw response truncated to 200
characters plus `...`, or the verbatim response when it has at most 200. -/
def fallbackSummary (response : List Char) : List Char :=
  if 200 < response.length then response.take 200 ++ cs "..." else response

/-- The fallback record built at `src/main.py` lines 49–54. -/
def fallbackRecord (response : List Char) : PyJson :=
  PyJson.obj
    [ (cs "topic", PyJson.str (cs "Research Topic")),
      (cs "summary", PyJson.str (fallbackSummary response)),
      (cs "sources", PyJson.arr [PyJson.str (cs "Information from search results")]),
      (cs "tools_used", PyJson.arr [PyJson.str (cs "Wikipedia"), PyJson.str (cs "Web Search")]) ]

/-- `clean_json_response` (`src/main.py` lines 30–62).  `none` models the
implicit Python `None` that the function returns when the strict parse fails
and `re.search` finds no `{…}` span: in that case the inner `if` guard is
false, no `return` executes, and control falls off the end of the
`except json.JSONDecodeError` handler.  The final `except Exception` handler
(lines 55–62) is unreachable for string inputs, whose only `json.loads`
failure is `JSONDecodeError`. -/
def clean_json_response (response : List Char) : Option PyJson :=
  match pyLoads response with
  | some v => some v
  | none =>
    match jsonSpanMatch response with
    | some json_str =>
      match pyLoads (pyStrip (removeFences json_str)) with
      | some v => some v
      | none => some (fallbackRecord response)
    | none => none

/-- The `ResearchResponse` pydantic model (`src/main.py` lines 13–17). -/
structure ResearchResponse where
  topic : List Char
  summary : List Char
  sources : List (List Char)
  tools_used : List (List Char)

/-- Pydantic validation of a `str` field: the value must be a JSON string.
(Cross-type coercions differ between pydantic versions; no claim feeds a
non-string into a `str` field.) -/
def asStr : PyJson → Option (List Char)
  | PyJson.str s => some s
  | _ => none

/-- Validate every element of a JSON array as a string. -/
def asStrAll : List PyJson → Option (List (List Char))
  | [] => some []
  | x :: xs =>
    match asStr x, asStrAll xs with
    | some s, some rest => some (s :: rest)
    | _, _ => none

/-- Pydantic validation of a `list[str]` field: a JSON array whose elements
are all strings; an empty array is valid. -/
def asStrList : PyJson → Option (List (List Char))
  | PyJson.arr xs => asStrAll xs
  | _ => none

/-- A JSON array of strings. -/
def strArr (l : List (List Char)) : PyJson := PyJson.arr (l.map PyJson.str)

/-- Python dict lookup on the (duplicate-free) entry list built by the
decoder. -/
def lookupKV : List (List Char × PyJson) → List Char → Option PyJson
  | [], _ => none
  | (k', v) :: rest, k => if k' = k then some v else lookupKV rest k

/-- `d.get(key, default)`. -/
def pyDictGet (entries : List (List Char × PyJson)) (k : List Char) (dflt : PyJson) : PyJson :=
  match lookupKV entries k with
  | some v => v
  | none => dflt

/-- Lines 120–125 of `src/main.py`: build the `ResearchResponse` from the
normalizer's output, defaulting each individually missing key via `.get`.
`rd = none` models the `None` returned by `clean_json_response` on its
fall-through path: `.get` on `None` raises `AttributeError`, which the
enclosing `except Exception` turns into a failed query; likewise `.get` on a
non-dict JSON value raises, and a field value of the wrong type makes the
pydantic constructor raise `ValidationError`. -/
def buildRecord (rd : Option PyJson) : Option ResearchResponse :=
  match rd with
  | some (PyJson.obj entries) =>
    match asStr (pyDictGet entries (cs "topic") (PyJson.str (cs "Research Topic"))),
          asStr (pyDictGet entries (cs "summary") (PyJson.str (cs "No summary available"))),
          asStrList (pyDictGet entries (cs "sources") (strArr [cs "Information from search results"])),
          asStrList (pyDictGet entries (cs "tools_used") (strArr [cs "Wikipedia", cs "Web Search"])) with
    | some t, some sm, some src, some tu => some ⟨t, sm, src, tu⟩
    | _, _, _, _ => none
  | _ => none

/-- The external collaborators: `wiki_tool.run`, `search_tool.run` (from the
`tools` module) and `llm.invoke` (the Hugging Face endpoint).  Each call
either returns text or raises; a raised exception is modelled as
`Except.error` carrying the exception's message text. -/
structure Env where
  wiki : List Char → Except (List Char) (List Char)
  search : List Char → Except (List Char) (List Char)
  llm : List Char → Except (List Char) (List Char)

/-- Lines 67–71: the Wikipedia lookup with its local fallback.  Returns the
text to use and the console lines printed while obtaining it. -/
def wikiResultOf (env : Env) (query : List Char) : List Char × List (List Char) :=
  match env.wiki query with
  | Except.ok r => (r, [])
  | Except.error e =>
    (cs "No Wikipedia information available.",
     [cs "Warning: Wikipedia search failed: " ++ e])

/-- Lines 74–78: the web-search lookup with its local fallback. -/
def webResultOf (env : Env) (query : List Char) : List Char × List (List Char) :=
  match env.search query with
  | Except.ok r => (r, [])
  | Except.error e =>
    (cs "No web search information available.",
     [cs "Warning: Web search failed: " ++ e])

/-- Line 81: `combined_info`. -/
def combinedOf (env : Env) (query : List Char) : List Char :=
  cs "Wikipedia: " ++ (wikiResultOf env query).1 ++ cs "\nWeb Search: " ++ (webResultOf env query).1

/-- Lines 84–111: the prompt f-string, with `query` and `combined_info`
interpolated (`{{`/`}}` denote literal braces). -/
def promptOf (query combined_info : List Char) : List Char :=
  cs "\n        Task: Create a research summary based on the following information.\n        \n        Research Query: " ++
  query ++
  cs "\n        \n        Information Sources:\n        " ++
  combined_info ++
  cs "\n        \n        Instructions:\n        1. Analyze the provided information\n        2. Create a structured research summary\n        3. Format the response as a valid JSON object\n        \n        Required JSON Structure:\n        \x7b\n            \"topic\": \"Main research topic\",\n            \"summary\": \"Comprehensive summary of findings\",\n            \"sources\": [\"List of sources used\"],\n            \"tools_used\": [\"Wikipedia\", \"Web Search\"]\n        \x7d\n        \n        Important:\n        - Ensure the response is valid JSON\n        - Keep the summary concise but informative\n        - Include all relevant sources\n        - List all tools used\n        - Do not include any text outside the JSON object\n        "

/-- Message of the exception propagating out of lines 117–125 when the
normalizer's output cannot be turned into a `ResearchResponse`
(`AttributeError` on `None`/non-dict, or pydantic `ValidationError`); the
exact text is library-defined and inspected by no claim. -/
def recordFailureMsg : List Char := cs "record construction failed"

/-- `research_topic` (lines 64–129): returns the produced record (`none`
models the `return None` of the outer `except`) together with the console
lines printed during the call. -/
def research_topic (env : Env) (query : List Char) :
    Option ResearchResponse × List (List Char) :=
  match env.llm (promptOf query (combinedOf env query)) with
  | Except.error e =>
    (none,
     (wikiResultOf env query).2 ++ (webResultOf env query).2 ++
       [cs "Error during research: " ++ e])
  | Except.ok response =>
    match buildRecord (clean_json_response response) with
    | some rec => (some rec, (wikiResultOf env query).2 ++ (webResultOf env query).2)
    | none =>
      (none,
       (wikiResultOf env query).2 ++ (webResultOf env query).2 ++
         [cs "Error during research: " ++ recordFailureMsg])

/-- Observable state of the read-eval-print loop: the entries appended to
`research_output.txt` by `save_tool.run`, and the console print calls. -/
structure MainState where
  file : List (List Char)
  console : List (List Char)

/-- Modelled from the spec: `str(result)` — "the record's structural text
representation (field-by-field)".  The precise rendering is produced by
pydantic's `__str__`, which is outside the repository; no claim inspects it. -/
def renderRecord (r : ResearchResponse) : List Char :=
  cs "topic=" ++ r.topic ++ cs " summary=" ++ r.summary ++
  cs " sources=" ++ (r.sources.foldl (fun acc x => acc ++ x ++ cs ";") []) ++
  cs " tools_used=" ++ (r.tools_used.foldl (fun acc x => acc ++ x ++ cs ";") [])

/-- Lines 145–153: the console rendering of a successful record (one entry
per `print` call). -/
def displayLines (r : ResearchResponse) : List (List Char) :=
  [cs "\nResearch Results:", cs "Topic: " ++ r.topic, cs "\nSummary: " ++ r.summary, cs "\nSources:"] ++
  r.sources.map (fun s => cs "- " ++ s) ++
  [cs "\nTools Used:"] ++
  r.tools_used.map (fun t => cs "- " ++ t)

/-- One non-quit iteration of the `while True` loop (lines 141–159):
research the query, then either display and persist the record, or print the
failure message and persist nothing. -/
def stepQuery (env : Env) (q : List Char) (st : MainState) : MainState :=
  match research_topic env q with
  | (some r, log) =>
    { file := st.file ++ [renderRecord r],
      console := st.console ++ [cs "\nResearching... This may take a few moments."] ++ log ++
        displayLines r ++ [cs "\nResults have been saved to research_output.txt"] }
  | (none, log) =>
    { file := st.file,
      console := st.console ++ [cs "\nResearching... This may take a few moments."] ++ log ++
        [cs "\nSorry, I couldn\x27t complete the research. Please try again with a different query."] }

/-- The read-eval-print loop of `main` (lines 135–159), driven by the list of
lines the user enters: `quit` (case-insensitive) exits, anything else is
processed by `stepQuery`. -/
def runMain (env : Env) : List (List Char) → MainState → MainState
  | [], st => st
  | q :: rest, st =>
    if pyLower q = cs "quit" then st else runMain env rest (stepQuery env q st)

/-- `main` (lines 131–159): the welcome banner, then the loop from the empty
file state. -/
def mainLoop (env : Env) (inputs : List (List Char)) : MainState :=
  runMain env inputs
    { file := [],
      console := [cs "Welcome to the Research Assistant!",
                  cs "This tool will help you research topics using Wikipedia and web search."] }

/-- Whether a key is present in a decoded JSON object. -/
def containsKey (entries : List (List Char × PyJson)) (k : List Char) : Bool :=
  entries.any (fun e => e.1 == k)

/-- Validating a list of strings rebuilt from plain strings succeeds and
returns those strings. -/
theorem asStrList_strArr (l : List (List Char)) : asStrList (strArr l) = some l := by
  induction l with
  | nil => rfl
  | cons x xs ih =>
    simp only [asStrList, strArr, List.map_cons, asStrAll, asStr] at ih ⊢
    simp [ih]

/-- C1: the claim states that `clean_json_response` always yields a usable
record and never returns nothing.  The code violates this: when the strict
parse fails and `re.search` finds no `{…}` span, the `if json_match:` guard
is skipped and the function falls off the end of the handler, returning
Python `None` — contradicting its own `-> dict` annotation.  This theorem
evaluates the model at such an input. -/
theorem c1_clean_json_response_none_on_braceless_input :
    clean_json_response (cs "hello") = none := rfl

/-- C2 counterexample: an input that fails strict parsing and contains no
`{…}` span makes `clean_json_response` return `None`, not the fallback
record the claim promises. -/
theorem c2_no_span_returns_none_not_fallback :
    clean_json_response (cs "no json here") = none ∧
    some (fallbackRecord (cs "no json here")) ≠ (none : Option PyJson) :=
  ⟨rfl, by simp⟩

/-- C2 (amended): when strict parsing fails, a `{…}` span exists and its
cleaned candidate still fails to parse, `clean_json_response` returns the
fallback record (topic `Research Topic`, summary = input truncated to 200
characters plus `...` or verbatim, the fixed sources and tools); when no
span exists it instead returns `None`. -/
theorem c2_fallback_on_unparseable_candidate (s c : List Char)
    (hs : pyLoads s = none) (hm : jsonSpanMatch s = some c)
    (hc : pyLoads (pyStrip (removeFences c)) = none) :
    clean_json_response s = some (fallbackRecord s) ∧
    (∀ t : List Char, pyLoads t = none → jsonSpanMatch t = none →
       clean_json_response t = none) := by
  refine ⟨?_, ?_⟩
  · simp [clean_json_response, hs, hm, hc]
  · intro t ht hmt
    simp [clean_json_response, ht, hmt]

/-- Witness for C2's amended theorem at the concrete input `x{bad}`. -/
theorem c2_fallback_on_unparseable_candidate_witness :
    clean_json_response (cs "x\x7bbad\x7d") = some (fallbackRecord (cs "x\x7bbad\x7d")) ∧
    (∀ t : List Char, pyLoads t = none → jsonSpanMatch t = none →
       clean_json_response t = none) :=
  c2_fallback_on_unparseable_candidate (cs "x\x7bbad\x7d") (cs "\x7bbad\x7d") rfl rfl rfl

/-- C5: an input that strictly parses as a JSON object (in particular one
containing the four required keys) is returned by `clean_json_response`
exactly as parsed — round-trip identity with the strict parse. -/
theorem c5_strict_parse_returned_unchanged (s : List Char)
    (entries : List (List Char × PyJson))
    (hp : pyLoads s = some (PyJson.obj entries))
    (_h1 : containsKey entries (cs "topic") = true)
    (_h2 : containsKey entries (cs "summary") = true)
    (_h3 : containsKey entries (cs "sources") = true)
    (_h4 : containsKey entries (cs "tools_used") = true) :
    clean_json_response s = some (PyJson.obj entries) := by
  simp [clean_json_response, hp]

/-- Witness for C5 at a concrete four-key JSON document. -/
theorem c5_strict_parse_returned_unchanged_witness :
    clean_json_response
      (cs "\x7b\"topic\":\"T\",\"summary\":\"S\",\"sources\":[\"a\"],\"tools_used\":[\"w\"]\x7d") =
    some (PyJson.obj
      [ (cs "topic", PyJson.str (cs "T")), (cs "summary", PyJson.str (cs "S")),
        (cs "sources", PyJson.arr [PyJson.str (cs "a")]),
        (cs "tools_used", PyJson.arr [PyJson.str (cs "w")]) ]) :=
  c5_strict_parse_returned_unchanged _ _ rfl rfl rfl rfl rfl

/-- C3 counterexample: a strictly-valid JSON response missing only the
`summary` key yields a record whose summary is the `.get` default
`No summary available`, which differs from the §4.1 step-3 fallback summary
(the raw response text, since it is shorter than 200 characters).  The claim
that every individually-missing key defaults to the step-3 values is
therefore false for `summary`. -/
theorem c3_summary_default_differs_from_step3 :
    (research_topic
      ⟨fun _ => Except.ok (cs "W"), fun _ => Except.ok (cs "S"),
       fun _ => Except.ok (cs "\x7b\"topic\":\"X\",\"sources\":[\"a\"],\"tools_used\":[\"b\"]\x7d")⟩
      (cs "q")).1 =
      some ⟨cs "X", cs "No summary available", [cs "a"], [cs "b"]⟩ ∧
    cs "No summary available" ≠
      fallbackSummary (cs "\x7b\"topic\":\"X\",\"sources\":[\"a\"],\"tools_used\":[\"b\"]\x7d") :=
  ⟨rfl, by decide⟩

/-- C3 (amended): for every mapping produced by the normalizer, the
orchestrator defaults each individually-missing key, key by key — `topic` to
`Research Topic`, `sources` to `["Information from search results"]`,
`tools_used` to `["Wikipedia", "Web Search"]` (the §4.1 step-3 values), but
`summary` to `No summary available` (not the step-3 truncated-input
fallback) — and preserves every present key verbatim. -/
theorem c3_get_defaults_key_by_key (env : Env) (q response : List Char)
    (entries : List (List Char × PyJson))
    (tv sv : Option (List Char)) (lv uv : Option (List (List Char)))
    (hllm : env.llm (promptOf q (combinedOf env q)) = Except.ok response)
    (hclean : clean_json_response response = some (PyJson.obj entries))
    (ht : lookupKV entries (cs "topic") = tv.map PyJson.str)
    (hs : lookupKV entries (cs "summary") = sv.map PyJson.str)
    (hl : lookupKV entries (cs "sources") = lv.map strArr)
    (hu : lookupKV entries (cs "tools_used") = uv.map strArr) :
    (research_topic env q).1 =
      some ⟨tv.getD (cs "Research Topic"), sv.getD (cs "No summary available"),
            lv.getD [cs "Information from search results"],
            uv.getD [cs "Wikipedia", cs "Web Search"]⟩ := by
  have hbuild : buildRecord (clean_json_response response) =
      some ⟨tv.getD (cs "Research Topic"), sv.getD (cs "No summary available"),
            lv.getD [cs "Information from search results"],
            uv.getD [cs "Wikipedia", cs "Web Search"]⟩ := by
    rw [hclean]
    cases tv <;> cases sv <;> cases lv <;> cases uv <;>
      simp [buildRecord, pyDictGet, ht, hs, hl, hu, asStr, asStrList_strArr]
  simp [research_topic, hllm, hbuild]

/-- Witness for C3's amended theorem: a response with `topic` and `summary`
present and `sources`/`tools_used` missing yields the two present values
verbatim and the two documented fallbacks. -/
theorem c3_get_defaults_key_by_key_witness :
    (research_topic
      ⟨fun _ => Except.ok (cs "W"), fun _ => Except.ok (cs "S"),
       fun _ => Except.ok (cs "\x7b\"topic\":\"X\",\"summary\":\"Y\"\x7d")⟩
      (cs "q")).1 =
      some ⟨cs "X", cs "Y", [cs "Information from search results"],
            [cs "Wikipedia", cs "Web Search"]⟩ :=
  c3_get_defaults_key_by_key _ (cs "q") (cs "\x7b\"topic\":\"X\",\"summary\":\"Y\"\x7d")
    [(cs "topic", PyJson.str (cs "X")), (cs "summary", PyJson.str (cs "Y"))]
    (some (cs "X")) (some (cs "Y")) none none rfl rfl rfl rfl rfl rfl

/-- C4 counterexample: a response whose JSON explicitly contains
`"sources": []` and `"tools_used": []` is returned to the caller with both
sequences empty — the fallback values are injected only for missing keys,
so the claimed invariant "`sources` and `tools_used` are never empty in the
returned record" fails. -/
theorem c4_empty_lists_reach_the_caller :
    (research_topic
      ⟨fun _ => Except.ok (cs "W"), fun _ => Except.ok (cs "S"),
       fun _ => Except.ok
         (cs "\x7b\"topic\":\"T\",\"summary\":\"S\",\"sources\":[],\"tools_used\":[]\x7d")⟩
      (cs "q")).1 =
      some ⟨cs "T", cs "S", ([] : List (List Char)), ([] : List (List Char))⟩ :=
  rfl

/-- C4 (amended): every record returned by `research_topic` carries all four
fields (they are fields of the constructed `ResearchResponse`); when the
`sources` or `tools_used` key is absent from the normalizer's mapping the
field is set to its non-empty fallback value, but a key explicitly present
with an empty array is preserved, so the returned sequences can be empty. -/
theorem c4_fallbacks_only_for_missing_keys (entries : List (List Char × PyJson))
    (rec : ResearchResponse)
    (hb : buildRecord (some (PyJson.obj entries)) = some rec) :
    (lookupKV entries (cs "sources") = none →
       rec.sources = [cs "Information from search results"] ∧ rec.sources ≠ []) ∧
    (lookupKV entries (cs "tools_used") = none →
       rec.tools_used = [cs "Wikipedia", cs "Web Search"] ∧ rec.tools_used ≠ []) := by
  constructor
  · intro hnone
    simp only [buildRecord, pyDictGet, hnone, asStrList_strArr] at hb
    split at hb
    · cases hb
      rename_i t sm src tu h1 h2 h3 h4
      have hsrc : src = [cs "Information from search results"] := (Option.some.inj h3).symm
      exact ⟨hsrc, by rw [hsrc]; simp⟩
    · exact absurd hb (by simp)
  · intro hnone
    simp only [buildRecord, pyDictGet, hnone, asStrList_strArr] at hb
    split at hb
    · cases hb
      rename_i t sm src tu h1 h2 h3 h4
      have htu : tu = [cs "Wikipedia", cs "Web Search"] := (Option.some.inj h4).symm
      exact ⟨htu, by rw [htu]; simp⟩
    · exact absurd hb (by simp)

/-- Witness for C4's amended theorem: both keys missing gives both non-empty
fallbacks. -/
theorem c4_fallbacks_only_for_missing_keys_witness :
    (lookupKV [(cs "topic", PyJson.str (cs "X")), (cs "summary", PyJson.str (cs "Y"))]
        (cs "sources") = none →
       (⟨cs "X", cs "Y", [cs "Information from search results"],
         [cs "Wikipedia", cs "Web Search"]⟩ : ResearchResponse).sources =
           [cs "Information from search results"] ∧
       (⟨cs "X", cs "Y", [cs "Information from search results"],
         [cs "Wikipedia", cs "Web Search"]⟩ : ResearchResponse).sources ≠ []) ∧
    (lookupKV [(cs "topic", PyJson.str (cs "X")), (cs "summary", PyJson.str (cs "Y"))]
        (cs "tools_used") = none →
       (⟨cs "X", cs "Y", [cs "Information from search results"],
         [cs "Wikipedia", cs "Web Search"]⟩ : ResearchResponse).tools_used =
           [cs "Wikipedia", cs "Web Search"] ∧
       (⟨cs "X", cs "Y", [cs "Information from search results"],
         [cs "Wikipedia", cs "Web Search"]⟩ : ResearchResponse).tools_used ≠ []) :=
  c4_fallbacks_only_for_missing_keys
    [(cs "topic", PyJson.str (cs "X")), (cs "summary", PyJson.str (cs "Y"))] _ rfl

/-- C6: when the generation endpoint raises, the query yields no record, the
`Error during research:` line is printed, nothing is appended to the output
file, and the loop goes on to process the remaining input lines instead of
terminating. -/
theorem c6_generation_failure_is_local (env : Env) (q e : List Char)
    (rest : List (List Char)) (st : MainState)
    (hq : pyLower q ≠ cs "quit")
    (hllm : env.llm (promptOf q (combinedOf env q)) = Except.error e) :
    (research_topic env q).1 = none ∧
    (cs "Error during research: " ++ e) ∈ (research_topic env q).2 ∧
    (stepQuery env q st).file = st.file ∧
    runMain env (q :: rest) st = runMain env rest (stepQuery env q st) := by
  have hrt : research_topic env q =
      (none, (wikiResultOf env q).2 ++ (webResultOf env q).2 ++
        [cs "Error during research: " ++ e]) := by
    simp [research_topic, hllm]
  refine ⟨by rw [hrt], by rw [hrt]; simp, ?_, ?_⟩
  · simp [stepQuery, hrt]
  · simp [runMain, hq]

/-- Witness for C6 with a concrete environment whose endpoint raises. -/
theorem c6_generation_failure_is_local_witness :
    (research_topic
      ⟨fun _ => Except.ok (cs "W"), fun _ => Except.ok (cs "S"),
       fun _ => Except.error (cs "boom")⟩ (cs "hi")).1 = none ∧
    (cs "Error during research: " ++ cs "boom") ∈
      (research_topic
        ⟨fun _ => Except.ok (cs "W"), fun _ => Except.ok (cs "S"),
         fun _ => Except.error (cs "boom")⟩ (cs "hi")).2 ∧
    (stepQuery
      ⟨fun _ => Except.ok (cs "W"), fun _ => Except.ok (cs "S"),
       fun _ => Except.error (cs "boom")⟩ (cs "hi") ⟨[], []⟩).file =
      (⟨[], []⟩ : MainState).file ∧
    runMain
      ⟨fun _ => Except.ok (cs "W"), fun _ => Except.ok (cs "S"),
       fun _ => Except.error (cs "boom")⟩ [cs "hi"] ⟨[], []⟩ =
    runMain
      ⟨fun _ => Except.ok (cs "W"), fun _ => Except.ok (cs "S"),
       fun _ => Except.error (cs "boom")⟩ []
      (stepQuery
        ⟨fun _ => Except.ok (cs "W"), fun _ => Except.ok (cs "S"),
         fun _ => Except.error (cs "boom")⟩ (cs "hi") ⟨[], []⟩) :=
  c6_generation_failure_is_local _ (cs "hi") (cs "boom") [] ⟨[], []⟩
    (by decide) rfl

/-- C7: a raising lookup collaborator is non-fatal: the produced result is
the same as if the collaborator had returned the documented placeholder
text, and the only console-output difference is the single inserted warning
line (for the web search, inserted right after the Wikipedia leg's output). -/
theorem c7_lookup_failures_are_substituted (env env2 : Env) (q e1 e2 : List Char)
    (hw : env.wiki q = Except.error e1)
    (hs : env2.search q = Except.error e2) :
    ((research_topic env q).1 =
       (research_topic
         { env with wiki := fun _ => Except.ok (cs "No Wikipedia information available.") }
         q).1 ∧
     (research_topic env q).2 =
       (cs "Warning: Wikipedia search failed: " ++ e1) ::
         (research_topic
           { env with wiki := fun _ => Except.ok (cs "No Wikipedia information available.") }
           q).2) ∧
    ((research_topic env2 q).1 =
       (research_topic
         { env2 with search := fun _ => Except.ok (cs "No web search information available.") }
         q).1 ∧
     (research_topic env2 q).2 =
       ((research_topic
           { env2 with search := fun _ => Except.ok (cs "No web search information available.") }
           q).2.take (wikiResultOf env2 q).2.length) ++
         (cs "Warning: Web search failed: " ++ e2) ::
           ((research_topic
               { env2 with search := fun _ => Except.ok (cs "No web search information available.") }
               q).2.drop (wikiResultOf env2 q).2.length)) := by
  constructor
  · have hwr : wikiResultOf env q =
        (cs "No Wikipedia information available.",
         [cs "Warning: Wikipedia search failed: " ++ e1]) := by
      simp [wikiResultOf, hw]
    have hwr2 : wikiResultOf
        { env with wiki := fun _ => Except.ok (cs "No Wikipedia information available.") } q =
        (cs "No Wikipedia information available.", []) := by
      simp [wikiResultOf]
    have hcomb : combinedOf env q =
        combinedOf
          { env with wiki := fun _ => Except.ok (cs "No Wikipedia information available.") } q := by
      simp [combinedOf, hwr, hwr2, webResultOf]
    simp only [research_topic, hcomb, hwr, hwr2, webResultOf]
    cases env.llm (promptOf q (combinedOf
        { env with wiki := fun _ => Except.ok (cs "No Wikipedia information available.") } q)) with
    | error e => simp
    | ok response => cases hb2 : buildRecord (clean_json_response response) <;> simp [hb2]
  · have hsr : webResultOf env2 q =
        (cs "No web search information available.",
         [cs "Warning: Web search failed: " ++ e2]) := by
      simp [webResultOf, hs]
    have hsr2 : webResultOf
        { env2 with search := fun _ => Except.ok (cs "No web search information available.") } q =
        (cs "No web search information available.", []) := by
      simp [webResultOf]
    have hwiki : wikiResultOf
        { env2 with search := fun _ => Except.ok (cs "No web search information available.") } q =
        wikiResultOf env2 q := by
      simp [wikiResultOf]
    have hcomb : combinedOf env2 q =
        combinedOf
          { env2 with search := fun _ => Except.ok (cs "No web search information available.") } q := by
      simp [combinedOf, hsr, hsr2, hwiki]
    simp only [research_topic, hcomb, hsr, hsr2, hwiki]
    cases env2.llm (promptOf q (combinedOf
        { env2 with search := fun _ => Except.ok (cs "No web search information available.") } q)) with
    | error e => simp [List.take_left, List.drop_left]
    | ok response =>
      cases hb2 : buildRecord (clean_json_response response) <;>
        simp [hb2, List.take_left, List.drop_left]

/-- An environment whose Wikipedia collaborator raises. -/
def envWikiFail : Env :=
  ⟨fun _ => Except.error (cs "down"), fun _ => Except.ok (cs "S"),
   fun _ => Except.ok (cs "out")⟩

/-- An environment whose web-search collaborator raises. -/
def envWebFail : Env :=
  ⟨fun _ => Except.ok (cs "W"), fun _ => Except.error (cs "down2"),
   fun _ => Except.ok (cs "out")⟩

/-- Witness for C7 at concrete failing collaborators. -/
theorem c7_lookup_failures_are_substituted_witness :
    ((research_topic envWikiFail (cs "q")).1 =
       (research_topic
         { envWikiFail with wiki := fun _ => Except.ok (cs "No Wikipedia information available.") }
         (cs "q")).1 ∧
     (research_topic envWikiFail (cs "q")).2 =
       (cs "Warning: Wikipedia search failed: " ++ cs "down") ::
         (research_topic
           { envWikiFail with wiki := fun _ => Except.ok (cs "No Wikipedia information available.") }
           (cs "q")).2) ∧
    ((research_topic envWebFail (cs "q")).1 =
       (research_topic
         { envWebFail with search := fun _ => Except.ok (cs "No web search information available.") }
         (cs "q")).1 ∧
     (research_topic envWebFail (cs "q")).2 =
       ((research_topic
           { envWebFail with search := fun _ => Except.ok (cs "No web search information available.") }
           (cs "q")).2.take (wikiResultOf envWebFail (cs "q")).2.length) ++
         (cs "Warning: Web search failed: " ++ cs "down2") ::
           ((research_topic
               { envWebFail with search := fun _ => Except.ok (cs "No web search information available.") }
               (cs "q")).2.drop (wikiResultOf envWebFail (cs "q")).2.length)) :=
  c7_lookup_failures_are_substituted envWikiFail envWebFail (cs "q")
    (cs "down") (cs "down2") rfl rfl

/-- `firstBraceIdx` skips a brace-free prefix. -/
theorem firstBraceIdx_append (a t : List Char) (ha : '{' ∉ a) :
    firstBraceIdx (a ++ t) = (firstBraceIdx t).map (· + a.length) := by
  induction a with
  | nil => cases h : firstBraceIdx t <;> simp [h]
  | cons x a2 ih =>
    simp only [List.mem_cons, not_or] at ha
    simp only [List.cons_append, firstBraceIdx, if_neg (Ne.symm ha.1), List.append_eq]
    rw [ih ha.2]
    cases h : firstBraceIdx t
    · simp [h]
    · simp [h]
      omega

/-- `firstCloseIdx` skips a `}`-free prefix. -/
theorem firstCloseIdx_append (a t : List Char) (ha : '}' ∉ a) :
    firstCloseIdx (a ++ t) = (firstCloseIdx t).map (· + a.length) := by
  induction a with
  | nil => cases h : firstCloseIdx t <;> simp [h]
  | cons x a2 ih =>
    simp only [List.mem_cons, not_or] at ha
    simp only [List.cons_append, firstCloseIdx, if_neg (Ne.symm ha.1), List.append_eq]
    rw [ih ha.2]
    cases h : firstCloseIdx t
    · simp [h]
    · simp [h]
      omega

/-- On an input decomposed around its first `{` and last `}`, the model of
`re.search(r'\{[\s\S]*\}', ·)` returns exactly the span between them. -/
theorem jsonSpanMatch_decomp (a b c : List Char) (ha : '{' ∉ a) (hc : '}' ∉ c) :
    jsonSpanMatch (a ++ ('{' :: (b ++ ('}' :: c)))) = some ('{' :: (b ++ ['}'])) := by
  have hfb : firstBraceIdx (a ++ ('{' :: (b ++ ('}' :: c)))) = some a.length := by
    rw [firstBraceIdx_append a _ ha]
    simp [firstBraceIdx]
  have hfc : firstCloseIdx (a ++ ('{' :: (b ++ ('}' :: c)))).reverse = some c.length := by
    have hrev : (a ++ ('{' :: (b ++ ('}' :: c)))).reverse =
        c.reverse ++ ('}' :: (b.reverse ++ ('{' :: a.reverse))) := by
      simp
    rw [hrev, firstCloseIdx_append c.reverse _ (by simpa using hc)]
    simp [firstCloseIdx]
  have hlen : (a ++ ('{' :: (b ++ ('}' :: c)))).length =
      a.length + b.length + c.length + 2 := by
    simp only [List.length_append, List.length_cons]
    omega
  have hlc : lastCloseIdx (a ++ ('{' :: (b ++ ('}' :: c)))) =
      some (a.length + b.length + 1) := by
    simp only [lastCloseIdx, hfc, hlen]
    congr 1
    omega
  simp only [jsonSpanMatch, hfb, hlc]
  rw [if_pos (by omega)]
  have harith : a.length + b.length + 1 - a.length + 1 = b.length + 2 := by omega
  rw [harith]
  have hdrop : (a ++ ('{' :: (b ++ ('}' :: c)))).drop a.length =
      '{' :: (b ++ ('}' :: c)) :=
    List.drop_left a _
  rw [hdrop]
  have hsplit : '{' :: (b ++ ('}' :: c)) = ('{' :: (b ++ ['}'])) ++ c := by simp
  rw [hsplit]
  have hlen2 : b.length + 2 = ('{' :: (b ++ ['}'])).length := by simp
  rw [hlen2, List.take_left]

/-- C9: whenever the strict parse fails and the input contains a `{` with a
later `}`, the candidate selected by `clean_json_response` is exactly the
substring from the first `{` to the last `}` — the greedy span, not the
smallest bounding pair — and the result is obtained by cleaning and parsing
that candidate (falling back when it still fails). -/
theorem c9_candidate_is_greedy_span (a b c : List Char)
    (hp : pyLoads (a ++ ('{' :: (b ++ ('}' :: c)))) = none)
    (ha : '{' ∉ a) (hc : '}' ∉ c) :
    jsonSpanMatch (a ++ ('{' :: (b ++ ('}' :: c)))) = some ('{' :: (b ++ ['}'])) ∧
    clean_json_response (a ++ ('{' :: (b ++ ('}' :: c)))) =
      (match pyLoads (pyStrip (removeFences ('{' :: (b ++ ['}'])))) with
       | some v => some v
       | none => some (fallbackRecord (a ++ ('{' :: (b ++ ('}' :: c)))))) := by
  have hspan := jsonSpanMatch_decomp a b c ha hc
  refine ⟨hspan, ?_⟩
  simp only [clean_json_response, hp, hspan]

/-- Witness for C9: the span in `noise {bad} tail` runs from the `{` to the
`}` and the unparseable candidate produces the fallback record. -/
theorem c9_candidate_is_greedy_span_witness :
    jsonSpanMatch (cs "noise " ++ ('{' :: (cs "bad" ++ ('}' :: cs " tail")))) =
      some ('{' :: (cs "bad" ++ ['}'])) ∧
    clean_json_response (cs "noise " ++ ('{' :: (cs "bad" ++ ('}' :: cs " tail")))) =
      (match pyLoads (pyStrip (removeFences ('{' :: (cs "bad" ++ ['}'])))) with
       | some v => some v
       | none =>
         some (fallbackRecord (cs "noise " ++ ('{' :: (cs "bad" ++ ('}' :: cs " tail")))))) :=
  c9_candidate_is_greedy_span (cs "noise ") (cs "bad") (cs " tail")
    rfl (by decide) (by decide)

/-- `u` ends in a non-whitespace character (vacuously true when empty). -/
def endsNonWs (u : List Char) : Bool :=
  match u.getLast? with
  | none => true
  | some x => !pyWs x

/-- `v` starts with a non-whitespace character (vacuously true when empty). -/
def headNonWs (v : List Char) : Bool :=
  match v with
  | [] => true
  | x :: _ => !pyWs x

/-- A successful `leadsWith` on a cons pattern forces the head. -/
theorem leadsWith_cons (p : Char) (ps s : List Char)
    (h : leadsWith (p :: ps) s = true) :
    ∃ t, s = p :: t ∧ leadsWith ps t = true := by
  cases s with
  | nil => simp [leadsWith] at h
  | cons c t =>
    simp only [leadsWith, Bool.and_eq_true, beq_iff_eq] at h
    exact ⟨t, by rw [h.1], h.2⟩

/-- Any fence match begins with a backtick somewhere in the input. -/
theorem btick_mem_of_matchFenceAt (s : List Char) (k : Nat)
    (h : matchFenceAt s = some k) : btick ∈ s := by
  rw [matchFenceAt] at h
  cases h1 : leadsWith (cs "```json") s with
  | true =>
    obtain ⟨t, hst, _⟩ := leadsWith_cons _ _ _ (by rw [show cs "```json" = btick :: cs "``json" from rfl] at h1; exact h1)
    rw [hst]; exact List.mem_cons_self _ _
  | false =>
    rw [h1] at h
    cases h2 : leadsWith (cs "```") (s.drop (wsLen s)) with
    | true =>
      obtain ⟨t, hst, _⟩ := leadsWith_cons _ _ _ (by rw [show cs "```" = btick :: cs "``" from rfl] at h2; exact h2)
      have : btick ∈ s.drop (wsLen s) := by rw [hst]; exact List.mem_cons_self _ _
      exact List.drop_subset _ _ this
    | false => rw [h2] at h; cases h

/-- Without backticks there is no fence match. -/
theorem matchFenceAt_none_of_no_btick (s : List Char) (h : btick ∉ s) :
    matchFenceAt s = none := by
  cases hm : matchFenceAt s with
  | none => rfl
  | some k => exact absurd (btick_mem_of_matchFenceAt s k hm) h

/-- Every fence match is at least three characters long. -/
theorem matchFenceAt_ge3 (s : List Char) (k : Nat)
    (h : matchFenceAt s = some k) : 3 ≤ k := by
  rw [matchFenceAt] at h
  cases h1 : leadsWith (cs "```json") s with
  | true => rw [h1] at h; cases h; omega
  | false =>
    rw [h1] at h
    cases h2 : leadsWith (cs "```") (s.drop (wsLen s)) with
    | true => rw [h2] at h; cases h; omega
    | false => rw [h2] at h; cases h

/-- `removeFencesAux` on the empty input. -/
theorem removeFencesAux_nil (f : Nat) : removeFencesAux f [] = [] := by
  cases f <;> rfl

/-- The scan result does not depend on the fuel once it covers the input. -/
theorem removeFencesAux_congr (f : Nat) :
    ∀ (g : Nat) (s : List Char), s.length ≤ f → s.length ≤ g →
      removeFencesAux f s = removeFencesAux g s := by
  induction f with
  | zero =>
    intro g s hf hg
    have hnil : s = [] := by cases s with
      | nil => rfl
      | cons c r => simp at hf
    rw [hnil, removeFencesAux_nil, removeFencesAux_nil]
  | succ f ih =>
    intro g s hf hg
    cases s with
    | nil => rw [removeFencesAux_nil, removeFencesAux_nil]
    | cons c rest =>
      cases g with
      | zero => simp at hg
      | succ g' =>
        simp only [removeFencesAux]
        cases h : matchFenceAt (c :: rest) with
        | some k =>
          have hk := matchFenceAt_ge3 _ _ h
          apply ih
          · simp only [List.length_drop, List.length_cons]
            simp only [List.length_cons] at hf
            omega
          · simp only [List.length_drop, List.length_cons]
            simp only [List.length_cons] at hg
            omega
        | none =>
          have := ih g' rest (by simp only [List.length_cons] at hf; omega)
            (by simp only [List.length_cons] at hg; omega)
          rw [this]

/-- A backtick-free input is left unchanged by the fence removal scan. -/
theorem removeFencesAux_id_of_no_btick (f : Nat) :
    ∀ s : List Char, s.length ≤ f → btick ∉ s → removeFencesAux f s = s := by
  induction f with
  | zero =>
    intro s hf _
    have hnil : s = [] := by cases s with
      | nil => rfl
      | cons c r => simp at hf
    rw [hnil, removeFencesAux_nil]
  | succ f ih =>
    intro s hf hb
    cases s with
    | nil => rw [removeFencesAux_nil]
    | cons c rest =>
      simp only [removeFencesAux, matchFenceAt_none_of_no_btick _ hb]
      rw [ih rest (by simp only [List.length_cons] at hf; omega)
        (fun h => hb (List.mem_cons_of_mem _ h))]

/-- `removeFences` leaves a backtick-free string unchanged. -/
theorem removeFences_id_of_no_btick (s : List Char) (h : btick ∉ s) :
    removeFences s = s :=
  removeFencesAux_id_of_no_btick s.length s le_rfl h

/-- If some character of `u` is not whitespace, the whitespace prefix of
`u ++ t` stays inside `u` and is shorter than `u`. -/
theorem takeWhile_ws_within (u t : List Char) (hx : ∃ x ∈ u, pyWs x = false) :
    (u ++ t).takeWhile pyWs = u.takeWhile pyWs ∧
    (u.takeWhile pyWs).length < u.length := by
  induction u with
  | nil => simp at hx
  | cons c u2 ih =>
    cases hws : pyWs c with
    | false => simp [List.takeWhile_cons, hws]
    | true =>
      have hx2 : ∃ x ∈ u2, pyWs x = false := by
        obtain ⟨x, hmem, hfalse⟩ := hx
        rcases List.mem_cons.mp hmem with h | h
        · rw [h, hws] at hfalse; cases hfalse
        · exact ⟨x, h, hfalse⟩
      obtain ⟨h1, h2⟩ := ih hx2
      refine ⟨by simp [List.takeWhile_cons, hws, h1], ?_⟩
      simp only [List.takeWhile_cons, hws, List.length_cons, List.length_cons, if_true]
      simpa using Nat.succ_lt_succ h2

/-- The head surviving `dropWhile` fails the predicate. -/
theorem head_dropWhile_false (l : List Char) (x : Char) (r : List Char)
    (h : l.dropWhile pyWs = x :: r) : pyWs x = false := by
  induction l with
  | nil => cases h
  | cons c l2 ih =>
    cases hws : pyWs c with
    | true => rw [List.dropWhile_cons, hws] at h; exact ih (by simpa using h)
    | false =>
      rw [List.dropWhile_cons, hws] at h
      simp at h
      rw [← h.1]; exact hws

/-- Inside a backtick-free segment containing a non-whitespace character, no
fence match can start: the first alternative needs a leading backtick, and
the greedy `\s*` of the second alternative stops at the segment's first
non-whitespace character, which is not a backtick. -/
theorem matchFenceAt_append_none (u t : List Char) (hu : btick ∉ u)
    (hx : ∃ x ∈ u, pyWs x = false) :
    matchFenceAt (u ++ t) = none := by
  have h1 : leadsWith (cs "```json") (u ++ t) = false := by
    cases hl : leadsWith (cs "```json") (u ++ t) with
    | false => rfl
    | true =>
      exfalso
      obtain ⟨r, hr, _⟩ := leadsWith_cons btick (cs "``json") (u ++ t)
        (by rw [show cs "```json" = btick :: cs "``json" from rfl] at hl; exact hl)
      cases u with
      | nil => simp at hx
      | cons c u2 =>
        simp only [List.cons_append] at hr
        injection hr with h0 _
        rw [h0] at hu
        exact hu (List.mem_cons_self _ _)
  have h2 : leadsWith (cs "```") ((u ++ t).drop (wsLen (u ++ t))) = false := by
    obtain ⟨htw, hlt⟩ := takeWhile_ws_within u t hx
    have hws : wsLen (u ++ t) = wsLen u := by simp [wsLen, htw]
    rw [hws]
    have hd : (u ++ t).drop (wsLen u) = u.drop (wsLen u) ++ t := by
      rw [List.drop_append_eq_append_drop]
      have hz : wsLen u - u.length = 0 := by
        simp only [wsLen]
        omega
      rw [hz, List.drop_zero]
    rw [hd]
    have hdw : u.drop (wsLen u) = u.dropWhile pyWs := by
      rw [wsLen]
      nth_rewrite 2 [← List.takeWhile_append_dropWhile (p := pyWs) (l := u)]
      rw [List.drop_left]
    rw [hdw]
    cases hdrop : u.dropWhile pyWs with
    | nil =>
      exfalso
      have hsum := List.takeWhile_append_dropWhile (p := pyWs) (l := u)
      rw [hdrop, List.append_nil] at hsum
      rw [hsum] at hlt
      omega
    | cons x r =>
      have hxws : pyWs x = false := head_dropWhile_false u x r hdrop
      have hxmem : x ∈ u := by
        have hsum := List.takeWhile_append_dropWhile (p := pyWs) (l := u)
        rw [hdrop] at hsum
        rw [← hsum]
        exact List.mem_append_right _ (List.mem_cons_self _ _)
      have hxne : btick ≠ x := fun hbe => hu (hbe ▸ hxmem)
      rw [show cs "```" = btick :: cs "``" from rfl]
      simp [leadsWith, beq_iff_eq, hxne]
  simp only [matchFenceAt, h1, h2]

/-- A nonempty list ending in a non-whitespace character contains a
non-whitespace character. -/
theorem exists_nonWs (u : List Char) (h : endsNonWs u = true) (hne : u ≠ []) :
    ∃ x ∈ u, pyWs x = false := by
  induction u with
  | nil => exact absurd rfl hne
  | cons c u2 ih =>
    cases u2 with
    | nil =>
      refine ⟨c, List.mem_cons_self _ _, ?_⟩
      simp only [endsNonWs, List.getLast?_singleton, Bool.not_eq_true'] at h
      exact h
    | cons d u3 =>
      have htail : endsNonWs (d :: u3) = true := by
        simp only [endsNonWs, List.getLast?_cons_cons] at h ⊢
        exact h
      obtain ⟨x, hm, hx⟩ := ih htail (by simp)
      exact ⟨x, List.mem_cons_of_mem _ hm, hx⟩

/-- `endsNonWs` passes to the tail. -/
theorem endsNonWs_tail (c : Char) (u2 : List Char)
    (h : endsNonWs (c :: u2) = true) : endsNonWs u2 = true := by
  cases u2 with
  | nil => rfl
  | cons d u3 =>
    simp only [endsNonWs, List.getLast?_cons_cons] at h ⊢
    exact h

/-- The scan walks over a backtick-free prefix that ends in a
non-whitespace character, keeping it verbatim. -/
theorem removeFencesAux_append (u : List Char) :
    ∀ (t : List Char) (f : Nat), btick ∉ u → endsNonWs u = true →
      (u ++ t).length ≤ f →
      removeFencesAux f (u ++ t) = u ++ removeFencesAux (f - u.length) t := by
  induction u with
  | nil =>
    intro t f _ _ hf
    simp
  | cons c u2 ih =>
    intro t f hu hlast hf
    cases f with
    | zero => simp at hf
    | succ f' =>
      have hex : ∃ x ∈ c :: u2, pyWs x = false := exists_nonWs _ hlast (by simp)
      have hm := matchFenceAt_append_none (c :: u2) t hu hex
      rw [List.cons_append] at hm
      rw [List.cons_append]
      simp only [removeFencesAux, hm]
      rw [ih t f' (fun h => hu (List.mem_cons_of_mem _ h)) (endsNonWs_tail c u2 hlast)
        (by simp only [List.length_append, List.length_cons] at hf ⊢; omega)]
      simp [Nat.succ_sub_succ]

/-- A string starting with a non-whitespace character has no `\s` prefix. -/
theorem wsLen_zero_of_headNonWs (v : List Char) (h : headNonWs v = true) :
    wsLen v = 0 := by
  cases v with
  | nil => rfl
  | cons x r =>
    simp only [headNonWs, Bool.not_eq_true'] at h
    simp [wsLen, List.takeWhile_cons, h]

/-- At a ```` ``` ```` not followed by `json`, the scan deletes exactly the
three backticks and continues. -/
theorem removeFencesAux_fence3 (f : Nat) (v : List Char)
    (hf : v.length + 3 ≤ f) (hjson : leadsWith (cs "json") v = false) :
    removeFencesAux f (cs "```" ++ v) = removeFences v := by
  cases f with
  | zero => exact absurd hf (by omega)
  | succ f' =>
    have hshape : cs "```" ++ v = btick :: (btick :: (btick :: v)) := rfl
    rw [hshape]
    have h1 : leadsWith (cs "```json") (btick :: (btick :: (btick :: v))) =
        leadsWith (cs "json") v := rfl
    have h2 : wsLen (btick :: (btick :: (btick :: v))) = 0 := rfl
    have h3 : leadsWith (cs "```") ((btick :: (btick :: (btick :: v))).drop 0) = true := rfl
    have hm : matchFenceAt (btick :: (btick :: (btick :: v))) = some 3 := by
      simp only [matchFenceAt, h1, hjson, h2, h3, Nat.zero_add]
    simp only [removeFencesAux, hm]
    have hd : (btick :: (btick :: (btick :: v))).drop 3 = v := rfl
    rw [hd, removeFences]
    exact removeFencesAux_congr f' v.length v (by omega) le_rfl

/-- At a ```` ```json ````, the scan deletes the marker together with the
following whitespace run; with no following whitespace, exactly the seven
marker characters are deleted. -/
theorem removeFencesAux_fenceJson (f : Nat) (v : List Char)
    (hf : v.length + 7 ≤ f) (hv : headNonWs v = true) :
    removeFencesAux f (cs "```json" ++ v) = removeFences v := by
  cases f with
  | zero => exact absurd hf (by omega)
  | succ f' =>
    have hshape : cs "```json" ++ v =
        btick :: (btick :: (btick :: ('j' :: ('s' :: ('o' :: ('n' :: v)))))) := rfl
    rw [hshape]
    have h1 : leadsWith (cs "```json")
        (btick :: (btick :: (btick :: ('j' :: ('s' :: ('o' :: ('n' :: v))))))) = true := rfl
    have hd7 : (btick :: (btick :: (btick :: ('j' :: ('s' :: ('o' :: ('n' :: v))))))).drop 7 = v := rfl
    have hm : matchFenceAt
        (btick :: (btick :: (btick :: ('j' :: ('s' :: ('o' :: ('n' :: v))))))) = some 7 := by
      simp only [matchFenceAt, h1, hd7, wsLen_zero_of_headNonWs v hv]
    simp only [removeFencesAux, hm, hd7]
    rw [removeFences]
    exact removeFencesAux_congr f' v.length v (by omega) le_rfl

/-- C10: the fence-marker substitution applies at every position of the
candidate, not only to a wrapping fence: any occurrence of ```` ``` ```` (not
followed by `json`) or ```` ```json ```` between a backtick-free segment `u`
that does not end in whitespace and a remainder `v` that does not start with
whitespace is deleted, `u` and `v` are kept and scanning continues inside
`v` — in particular occurrences inside JSON string values are deleted before
the parse attempt. -/
theorem c10_fences_removed_anywhere (u v : List Char)
    (hu : btick ∉ u) (hlast : endsNonWs u = true)
    (hjson : leadsWith (cs "json") v = false) (hv : headNonWs v = true) :
    removeFences (u ++ (cs "```" ++ v)) = u ++ removeFences v ∧
    removeFences (u ++ (cs "```json" ++ v)) = u ++ removeFences v := by
  have hlen3 : (cs "```").length = 3 := rfl
  have hlen7 : (cs "```json").length = 7 := rfl
  constructor
  · rw [removeFences, removeFencesAux_append u (cs "```" ++ v) _ hu hlast le_rfl]
    congr 1
    apply removeFencesAux_fence3 _ _ _ hjson
    simp only [List.length_append, hlen3]
    omega
  · rw [removeFences, removeFencesAux_append u (cs "```json" ++ v) _ hu hlast le_rfl]
    congr 1
    apply removeFencesAux_fenceJson _ _ _ hv
    simp only [List.length_append, hlen7]
    omega

/-- Witness for C10: a fence inside a JSON string value is deleted. -/
theorem c10_fences_removed_anywhere_witness :
    removeFences (cs "\x7b\"a\": \"x" ++ (cs "```" ++ cs "y\"\x7d")) =
      cs "\x7b\"a\": \"x" ++ removeFences (cs "y\"\x7d") ∧
    removeFences (cs "\x7b\"a\": \"x" ++ (cs "```json" ++ cs "y\"\x7d")) =
      cs "\x7b\"a\": \"x" ++ removeFences (cs "y\"\x7d") :=
  c10_fences_removed_anywhere (cs "\x7b\"a\": \"x") (cs "y\"\x7d")
    (by decide) (by decide) (by decide) (by decide)

/-- An input whose first character is a backtick fails the strict JSON
parse: a backtick is not JSON whitespace and starts no JSON value. -/
theorem pyLoads_btick (t : List Char) : pyLoads (btick :: t) = none := rfl

/-- `str.strip()` leaves a braced object text unchanged. -/
theorem pyStrip_braced (mid : List Char) :
    pyStrip ('{' :: (mid ++ ['}'])) = '{' :: (mid ++ ['}']) := by
  have h1 : List.dropWhile pyWs ('{' :: (mid ++ ['}'])) = '{' :: (mid ++ ['}']) := by
    rw [List.dropWhile_cons]
    simp [show pyWs '{' = false from rfl]
  have h2 : ('{' :: (mid ++ ['}'])).reverse = '}' :: (mid.reverse ++ ['{']) := by
    simp
  have h3 : List.dropWhile pyWs ('}' :: (mid.reverse ++ ['{'])) =
      '}' :: (mid.reverse ++ ['{']) := by
    rw [List.dropWhile_cons]
    simp [show pyWs '}' = false from rfl]
  rw [pyStrip, h1, h2, h3]
  simp

/-- C8 (amended): for every backtick-free JSON object text `J` (beginning
with `{`, ending with `}`) that parses to `m`, wrapping `J` in a markdown
JSON code fence gives the same mapping from `clean_json_response` as the
bare `J`: the wrapped input fails the strict parse, the `{…}` span recovers
exactly `J`, and the fence substitution and strip leave `J` intact. -/
theorem c8_fence_wrap_same_mapping (J mid : List Char) (m : PyJson)
    (hJ : J = '{' :: (mid ++ ['}'])) (hbt : btick ∉ J)
    (hm : pyLoads J = some m) :
    clean_json_response (cs "```json\n" ++ (J ++ cs "\n```")) = some m ∧
    clean_json_response J = some m := by
  refine ⟨?_, by simp only [clean_json_response, hm]⟩
  have hw : pyLoads (cs "```json\n" ++ (J ++ cs "\n```")) = none := by
    rw [show cs "```json\n" ++ (J ++ cs "\n```") =
        btick :: (cs "``json\n" ++ (J ++ cs "\n```")) from rfl]
    exact pyLoads_btick _
  have hshape : cs "```json\n" ++ (J ++ cs "\n```") =
      cs "```json\n" ++ ('{' :: (mid ++ ('}' :: cs "\n```"))) := by
    rw [hJ]
    simp
  have hspan : jsonSpanMatch (cs "```json\n" ++ (J ++ cs "\n```")) = some J := by
    rw [hshape, jsonSpanMatch_decomp (cs "```json\n") mid (cs "\n```")
      (by decide) (by decide), hJ]
  have hclean : pyStrip (removeFences J) = J := by
    rw [removeFences_id_of_no_btick J hbt, hJ, pyStrip_braced]
  simp only [clean_json_response, hw, hspan, hclean, hm]

/-- Witness for C8's amended theorem on a small backtick-free object. -/
theorem c8_fence_wrap_same_mapping_witness :
    clean_json_response (cs "```json\n" ++ (cs "\x7b\"a\": 1\x7d" ++ cs "\n```")) =
      some (PyJson.obj [(cs "a", PyJson.num (cs "1"))]) ∧
    clean_json_response (cs "\x7b\"a\": 1\x7d") =
      some (PyJson.obj [(cs "a", PyJson.num (cs "1"))]) :=
  c8_fence_wrap_same_mapping (cs "\x7b\"a\": 1\x7d") (cs "\"a\": 1")
    (PyJson.obj [(cs "a", PyJson.num (cs "1"))]) (by decide) (by decide) rfl

/-- C8 counterexample: for a JSON object text whose string value contains a
triple backtick, the fence-wrapped input does not yield the same mapping as
the bare input — the global fence substitution deletes the backticks inside
the string value, so the wrapped parse sees a different document. -/
theorem c8_backticks_in_string_break_wrap :
    clean_json_response (cs "```json\n\x7b\"a\": \"```\"\x7d\n```") =
      some (PyJson.obj [(cs "a", PyJson.str [])]) ∧
    clean_json_response (cs "\x7b\"a\": \"```\"\x7d") =
      some (PyJson.obj [(cs "a", PyJson.str (cs "```"))]) ∧
    some (PyJson.obj [(cs "a", PyJson.str ([] : List Char))]) ≠
      some (PyJson.obj [(cs "a", PyJson.str (cs "```"))]) := by
  refine ⟨rfl, rfl, ?_⟩
  simp only [ne_eq, Option.some.injEq, PyJson.obj.injEq, List.cons.injEq,
    Prod.mk.injEq, PyJson.str.injEq]
  decide
